import Mathlib

/-!
Verification of the devotional-feed ingestion core of the `ruc-icoc`
repository: the video-link identifier extractor and thumbnail deriver
(`utils.ts`, reproduced in `src/INSTRUCTIONS.md` lines 68-79), the row
normalizer, feed loader and list view model (`useDevotionals` and
`DevotionalsPage` in `src/App.tsx`), over the record types of `types.ts`
(`src/unnamed/part_000`).

JavaScript values are embedded as follows: a possibly-`undefined` string
field is `Option String`; a thrown `TypeError` is `none` of an
`Option`-returning function; machine numbers appearing only through their
comparison sign are embedded as `Int`.
-/

namespace Ruc

/-! ## Video-link identifier extractor

Embeds `getYouTubeId` from `utils.ts` (INSTRUCTIONS.md lines 70-74):

  const regExp = /^.*(youtu.be\/|v\/|u\/\w\/|embed\/|watch\?v=|&v=)([^#&?]*).*$/;
  -- (the source has no trailing $; `.*` at the end is unconstrained either way)
  const match = url.match(regExp);
  return (match && match[2].length === 11) ? match[2] : null;

JavaScript regex semantics embedded: `^.*` is greedy and `.` does not match
a line terminator, so the engine backtracks from the longest prefix, i.e.
the LAST position (within the first line) at which one of the alternatives
matches is chosen; the six alternatives begin with pairwise distinct
characters, so at most one matches at a given position; `[^#&?]*` is greedy
and the trailing `.*` is unconstrained, so capture 2 is the maximal run of
characters other than `#`, `&`, `?` after the marker.
-/

/-- JavaScript `.` (no `s` flag): any character except the four
line terminators LF, CR, U+2028, U+2029. -/
def jsDot (c : Char) : Bool :=
  !(c = '\n' || c = '\r' || c = Char.ofNat 0x2028 || c = Char.ofNat 0x2029)

/-- JavaScript `\w`: `[A-Za-z0-9_]`. -/
def jsWord (c : Char) : Bool :=
  (('a' ≤ c && c ≤ 'z') || ('A' ≤ c && c ≤ 'Z') || ('0' ≤ c && c ≤ '9') || c = '_')

/-- One element of a regex alternative: a literal character, the
wildcard `.`, or the class `\w`. -/
inductive Pat where
  | ch (c : Char)
  | dot
  | word
deriving DecidableEq

/-- Whether a character satisfies one pattern element. -/
def patOk : Pat → Char → Bool
  | .ch a, c => c = a
  | .dot,  c => jsDot c
  | .word, c => jsWord c

/-- Match a sequence of pattern elements against a prefix of the input,
returning the rest of the input on success. -/
def pmatch : List Pat → List Char → Option (List Char)
  | [],      s       => some s
  | _ :: _,  []      => none
  | p :: ps, c :: cs => if patOk p c then pmatch ps cs else none

/-- Alternative `youtu.be\/` (the dot is an unescaped wildcard). -/
def patYoutu : List Pat :=
  [.ch 'y', .ch 'o', .ch 'u', .ch 't', .ch 'u', .dot, .ch 'b', .ch 'e', .ch '/']

/-- Alternative `v\/`. -/
def patV : List Pat := [.ch 'v', .ch '/']

/-- Alternative `u\/\w\/`. -/
def patU : List Pat := [.ch 'u', .ch '/', .word, .ch '/']

/-- Alternative `embed\/`. -/
def patEmbed : List Pat := [.ch 'e', .ch 'm', .ch 'b', .ch 'e', .ch 'd', .ch '/']

/-- Alternative `watch\?v=`. -/
def patWatch : List Pat :=
  [.ch 'w', .ch 'a', .ch 't', .ch 'c', .ch 'h', .ch '?', .ch 'v', .ch '=']

/-- Alternative `&v=`. -/
def patAmp : List Pat := [.ch '&', .ch 'v', .ch '=']

/-- Try the six alternatives of group 1 in their declared order at the head
of the input (their first characters are pairwise distinct, so at most one
can match). -/
def tryAlts (s : List Char) : Option (List Char) :=
  match pmatch patYoutu s with
  | some r => some r
  | none =>
  match pmatch patV s with
  | some r => some r
  | none =>
  match pmatch patU s with
  | some r => some r
  | none =>
  match pmatch patEmbed s with
  | some r => some r
  | none =>
  match pmatch patWatch s with
  | some r => some r
  | none => pmatch patAmp s

/-- Position search of `^.*(alts)`: later positions are preferred (greedy
`.*`); a position is reachable only if every character before it matches
`.`, so a line terminator cuts off all later positions.  Returns the input
rest after the matched marker. -/
def matchFrom : List Char → Option (List Char)
  | [] => none
  | c :: rest =>
    if jsDot c then
      match matchFrom rest with
      | some r => some r
      | none => tryAlts (c :: rest)
    else tryAlts (c :: rest)

/-- The class `[^#&?]`. -/
def notDelim (c : Char) : Bool := !(c = '#' || c = '&' || c = '?')

/-- The 11-character gate of `getYouTubeId`:
`(match && match[2].length === 11) ? match[2] : null` given capture 2. -/
def lengthGate (cap : List Char) : Option String :=
  if cap.length = 11 then some (String.mk cap) else none

/-- Function getYouTubeId from `utils.ts`: match the regex; return capture 2
exactly when it has 11 characters, else null (`none`). -/
def getYouTubeId (url : String) : Option String :=
  match matchFrom url.data with
  | none => none
  | some rest => lengthGate (rest.takeWhile notDelim)

/-- Function getThumbnailUrl from `utils.ts` (INSTRUCTIONS.md lines 76-78). -/
def getThumbnailUrl (videoId : String) : String :=
  "https://img.youtube.com/vi/" ++ videoId ++ "/maxresdefault.jpg"

example : getYouTubeId "https://www.youtube.com/watch?v=dQw4w9WgXcQ" = some "dQw4w9WgXcQ" := by
  decide

example : getYouTubeId "https://youtu.be/dQw4w9WgXcQ" = some "dQw4w9WgXcQ" := by decide

example : getYouTubeId "https://youtu.be/short" = none := by decide

example : getYouTubeId "plain text" = none := by decide

example : getYouTubeId "youtuXbe/abcdefghijk" = some "abcdefghijk" := by decide

/-! ## Data model

`types.ts` (`src/unnamed/part_000`): the Language union ("tl" | "en") and the
`Devotional` interface.  The fields the normalizer copies verbatim from a
parsed CSV row can be `undefined` at runtime even though the interface
declares them `string`; those are embedded as `Option String` so that the
embedded record is the runtime value actually constructed, and the declared
(`string`) type is the predicate `·.isSome`. -/

/-- The union type Language of `types.ts`: the values "tl" and "en". -/
inductive Language where
  | tl
  | en
deriving DecidableEq

/-- One raw row produced by Papa.parse with header-row recognition on:
string fields keyed by header name, a key being absent (`none`) when the
row has no value under that header. -/
structure RawRow where
  date : Option String
  title : Option String
  speaker : Option String
  language : Option String
  scripture : Option String
  videoUrl : Option String
deriving DecidableEq

/-- The runtime shape of the records `useDevotionals` constructs
(`interface Devotional` of `types.ts`; verbatim-copied fields kept as the
possibly-`undefined` values the code actually produces). -/
structure Devotional where
  id : String
  date : Option String
  title : Option String
  speaker : Option String
  language : Language
  scripture : Option String
  videoUrl : Option String
  thumbnailUrl : String
deriving DecidableEq

/-- JavaScript string truthiness for a possibly-`undefined` string:
`undefined` and the empty string are falsy. -/
def truthy : Option String → Bool
  | none => false
  | some s => !(s = "")

/-- JavaScript toLowerCase, restricted to the ASCII mapping
(the `Char.toLower` of Lean).  The two agree on every comparison with the ASCII
literal "en" performed by the code: no character outside `A`-`Z` lowercases
to `e` or `n` in either semantics. -/
def jsToLower (s : String) : String := String.mk (s.data.map Char.toLower)

/-- The language normalization of `useDevotionals` line 81:
`row["Language"]?.toLowerCase() === "en" ? "en" : "tl"` — optional
chaining makes a missing field compare unequal to "en". -/
def normLang (x : Option String) : Language :=
  match x with
  | none => .tl
  | some s => if jsToLower s = "en" then .en else .tl

/-- The row filter of `useDevotionals` line 72:
`row => row["Date"] && row["Title"]`. -/
def rowPasses (r : RawRow) : Bool := truthy r.date && truthy r.title

/-- The map body of `useDevotionals` lines 73-87 applied to one surviving
row at its index in the filtered batch.  `none` is the `TypeError` thrown
by `getYouTubeId(undefined)` (`url.match` on `undefined`) when the row has
no `Video URL` value; on every row that has one, the body always produces
a record. -/
def normalizeRow (row : RawRow) (index : Nat) : Option Devotional := do
  let u ← row.videoUrl
  let videoId := (getYouTubeId u).getD ""
  some {
    id := "sheet-" ++ toString index
    date := row.date
    title := row.title
    speaker := row.speaker
    language := normLang row.language
    scripture := row.scripture
    videoUrl := row.videoUrl
    thumbnailUrl :=
      if videoId = "" then "https://picsum.photos/800/600?grayscale"
      else getThumbnailUrl videoId }

/-! ## Date comparison and sort

`useDevotionals` lines 91-93 sorts with the comparator
`(a, b) => new Date(b.date).getTime() - new Date(a.date).getTime()`.
Only the sign of the comparator is observable to `Array.prototype.sort`
(and a `NaN` comparator value is treated as `+0` by the `SortCompare`
abstract operation), so `Date.parse` is embedded sign-faithfully:
a strict `YYYY-MM-DD` string with a valid calendar date maps to the
integer `y * 10000 + m * 100 + d`, which is strictly monotone in the
actual millisecond timestamp; every other string maps to `none`
(an invalid date, `getTime()` = `NaN`).  `Array.prototype.sort` is
stable, and for a consistent comparator every stable sort produces the
same output, so it is embedded as a stable insertion sort. -/

/-- Decimal digit value of a character, if it is one. -/
def digitVal (c : Char) : Option Nat :=
  if '0' ≤ c && c ≤ '9' then some (c.toNat - '0'.toNat) else none

/-- Gregorian leap year. -/
def isLeap (y : Nat) : Bool := (y % 4 = 0 && !(y % 100 = 0)) || y % 400 = 0

/-- Number of days in a month. -/
def daysInMonth (y m : Nat) : Nat :=
  if m = 2 then (if isLeap y then 29 else 28)
  else if m = 4 || m = 6 || m = 9 || m = 11 then 30
  else 31

/-- Sign-faithful embedding of `new Date(s).getTime()` on strict ISO
`YYYY-MM-DD` dates (see the section comment): `none` is `NaN`. -/
def dateKey (s : String) : Option Int :=
  match s.data with
  | [y1, y2, y3, y4, h1, m1, m2, h2, d1, d2] =>
    if h1 = '-' && h2 = '-' then do
      let a ← digitVal y1
      let b ← digitVal y2
      let c ← digitVal y3
      let d ← digitVal y4
      let e ← digitVal m1
      let f ← digitVal m2
      let g ← digitVal d1
      let h ← digitVal d2
      let y := ((a * 10 + b) * 10 + c) * 10 + d
      let m := e * 10 + f
      let dd := g * 10 + h
      if 1 ≤ m && m ≤ 12 && 1 ≤ dd && dd ≤ daysInMonth y m then
        some ((y * 10000 + m * 100 + dd : Nat) : Int)
      else none
    else none
  | _ => none

/-- The sort key of a record: `new Date(x.date).getTime()`
(`new Date(undefined)` is also an invalid date). -/
def sortKey (d : Devotional) : Option Int := d.date.bind dateKey

/-- Whether `a` may be placed before `b`: the comparator value
`key b - key a` is `≤ 0` (with `NaN` treated as `0`). -/
def cmpLe (a b : Devotional) : Bool :=
  match sortKey a, sortKey b with
  | some x, some y => decide (y ≤ x)
  | _, _ => true

/-- Stable insertion into a sorted-descending list: the inserted element
precedes the first element it compares `≤ 0` against, so it goes after
every earlier element with an equal key. -/
def insertByDate (d : Devotional) : List Devotional → List Devotional
  | [] => [d]
  | e :: es => if cmpLe d e then d :: e :: es else e :: insertByDate d es

/-- The newest-first sort of `useDevotionals` lines 91-93 (stable; equal
to the stable sort of the engine whenever the comparator is consistent). -/
def sortByDateDesc : List Devotional → List Devotional
  | [] => []
  | d :: ds => insertByDate d (sortByDateDesc ds)

/-! ## Feed loader -/

/-- Normalize the filtered rows left to right, numbering from `i`
(the `.map((row, index) => ...)`); a thrown `TypeError` (`none`)
aborts the whole map. -/
def normalizeAll (i : Nat) : List RawRow → Option (List Devotional)
  | [] => some []
  | r :: rs => do
    let d ← normalizeRow r i
    let ds ← normalizeAll (i + 1) rs
    some (d :: ds)

/-- The `complete` callback body of `useDevotionals` lines 70-96:
filter, normalize with positional ids, sort newest first.
`none` is an exception escaping the callback. -/
def processRows (rows : List RawRow) : Option (List Devotional) :=
  (normalizeAll 0 (rows.filter rowPasses)).map sortByDateDesc

/-- Modelled from the spec: `MOCK_DEVOTIONALS` of `constants.ts` is not
among the provided sources; the spec describes it as "a fixed,
hand-authored set of records used when no data source is configured or
when retrieval fails — format identical to the normalized Record shape"
and "non-empty, fixed content". -/
def MOCK_DEVOTIONALS : List Devotional :=
  [ { id := "mock-1"
      date := some "2024-05-20"
      title := some "Faith in the Storm"
      speaker := some "Juan dela Cruz"
      language := .tl
      scripture := some "Mark 4:35-41"
      videoUrl := some "https://youtu.be/dQw4w9WgXcQ"
      thumbnailUrl := getThumbnailUrl "dQw4w9WgXcQ" }
  , { id := "mock-2"
      date := some "2024-05-01"
      title := some "Walking in Grace"
      speaker := some "Maria Santos"
      language := .en
      scripture := some "Ephesians 2:8-9"
      videoUrl := some "https://youtu.be/aaaaaaaaaaa"
      thumbnailUrl := getThumbnailUrl "aaaaaaaaaaa" } ]

/-- The three observable outputs of `useDevotionals`
(lines 45-47; initial value `⟨[], true, none⟩`). -/
structure LoadState where
  devotionals : List Devotional
  loading : Bool
  error : Option String
deriving DecidableEq

/-- Outcome of `Papa.parse` on the fetched text: the parser either calls
`complete` with the parsed rows or reports failure through its `error`
callback (the parser itself is an external library, abstracted to its
two observable outcomes). -/
inductive ParseResult where
  | success (rows : List RawRow)
  | failure
deriving DecidableEq

/-- Outcome of the effect of `useDevotionals` lines 49-112: no URL
configured, `fetch` rejection, a non-success response status, or a
response whose text reaches `Papa.parse`. -/
inductive FetchResult where
  | noUrl
  | reject
  | notOk
  | ok (p : ParseResult)
deriving DecidableEq

/-- The state after the load effect of `useDevotionals` completes.

* no URL: mock data after the 800 ms delay, no error (lines 51-58);
* `fetch` rejects, or `!response.ok` (the thrown "Failed to fetch CSV"
  lands in the same `.catch`): the catch block lines 105-111 sets the
  error, substitutes the mock data and clears `loading`;
* parser failure: the `error` callback lines 98-102 sets the error and
  clears `loading`, leaving `devotionals` at its initial `[]`;
* parser success: the `complete` callback stores the processed rows and
  clears `loading` (lines 95-96); an exception thrown inside it (a row
  with `Date` and `Title` but no `Video URL`) propagates out of
  `Papa.parse` and the enclosing `.then` into the same `.catch`. -/
def runLoad : FetchResult → LoadState
  | .noUrl => ⟨MOCK_DEVOTIONALS, false, none⟩
  | .reject => ⟨MOCK_DEVOTIONALS, false, some "Failed to load devotionals"⟩
  | .notOk => ⟨MOCK_DEVOTIONALS, false, some "Failed to load devotionals"⟩
  | .ok .failure => ⟨[], false, some "Failed to parse data"⟩
  | .ok (.success rows) =>
    match processRows rows with
    | some ds => ⟨ds, false, none⟩
    | none => ⟨MOCK_DEVOTIONALS, false, some "Failed to load devotionals"⟩

/-- The render gate of `DevotionalsPage` line 593: the record grid is
rendered only as `!loading && !error`. -/
def gridVisible (st : LoadState) : Bool := !st.loading && st.error.isNone

/-! ## List view model

`DevotionalsPage` lines 525-533:

  const [filter, setFilter] = useState<"all" | "tl" | "en">("all");
  const filteredDevotionals = devotionals.filter(d => {
    const matchesLang = filter === "all" || d.language === filter;
    const matchesSearch = d.title.toLowerCase().includes(searchTerm.toLowerCase()) ||
                          d.speaker.toLowerCase().includes(searchTerm.toLowerCase());
    return matchesLang && matchesSearch;
  });
-/

/-- The language filter selection: "all" | "tl" | "en". -/
inductive Filter where
  | all
  | tl
  | en
deriving DecidableEq

/-- The test `d.language === filter` for the two non-"all" selections. -/
def langIsFilter (l : Language) : Filter → Bool
  | .all => false
  | .tl => l = .tl
  | .en => l = .en

/-- JavaScript string includes: `sub` occurs contiguously in `hay`
(the empty string occurs in every string). -/
def strIncludes (hay sub : List Char) : Bool :=
  match hay with
  | [] => sub.isEmpty
  | _ :: t => sub.isPrefixOf hay || strIncludes t sub

/-- The filter callback body, one record at a time.  `none` is the
`TypeError` of calling `.toLowerCase()` on an `undefined` field;
evaluation order and `||` short-circuiting follow the source: the title
test runs first, and the speaker is only touched when it fails. -/
def rowPass (f : Filter) (t : String) (d : Devotional) : Option Bool := do
  let matchesLang := (f = Filter.all) || langIsFilter d.language f
  let matchesSearch ← do
    let ti ← d.title
    if strIncludes (jsToLower ti).data (jsToLower t).data then some true
    else do
      let sp ← d.speaker
      some (strIncludes (jsToLower sp).data (jsToLower t).data)
  some (matchesLang && matchesSearch)

/-- JavaScript array filter with a callback that can throw: elements are
visited left to right and the first exception aborts the whole filter. -/
def filterE (p : α → Option Bool) : List α → Option (List α)
  | [] => some []
  | x :: xs => do
    let b ← p x
    let r ← filterE p xs
    some (if b then x :: r else r)

/-- The filteredDevotionals sequence: the view-model output for a record collection,
language filter selection and search term. -/
def viewModel (ds : List Devotional) (f : Filter) (t : String) : Option (List Devotional) :=
  filterE (rowPass f t) ds

/-- Stated from the words of the spec (section 4.5), for comparison with `viewModel`:
the term is, case-insensitively, a substring of the field. -/
def ciSubstr (t field : String) : Bool :=
  strIncludes (jsToLower field).data (jsToLower t).data

/-- Stated from the words of the spec (section 4.5), for comparison with `viewModel`:
the selected language value, `none` when no filter is selected. -/
def selectedLang : Filter → Option Language
  | .all => none
  | .tl => some .tl
  | .en => some .en

/-- Stated from the words of the spec (section 4.5), for comparison with `viewModel`:
a record passes iff (no language filter is selected, or its language
equals the selected value) and (the search term is empty, or is a
case-insensitive substring of its title or of its speaker). -/
def specPass (f : Filter) (t : String) (d : Devotional) : Bool :=
  ((selectedLang f).isNone || (selectedLang f = some d.language)) &&
    (t = "" || ciSubstr t (d.title.getD "") || ciSubstr t (d.speaker.getD ""))

/-! ## Helper lemmas -/

/-- The character alphabet of a platform video identifier:
`[A-Za-z0-9_-]`.  Every regex alternative contains a character outside
this alphabet (`/`, `?`, `=` or `&`), which is what makes an identifier
inert for the marker search. -/
def isIdChar (c : Char) : Bool :=
  ('a' ≤ c && c ≤ 'z') || ('A' ≤ c && c ≤ 'Z') || ('0' ≤ c && c ≤ '9') ||
    c = '-' || c = '_'

theorem idChar_not_ch {a : Char} (ha : isIdChar a = false) :
    ∀ c, isIdChar c = true → patOk (.ch a) c = false := by
  intro c hc
  have hne : ¬(c = a) := fun e => by rw [e, ha] at hc; exact Bool.false_ne_true hc
  simp [patOk, hne]

theorem pmatch_bad_none {ps : List Pat} {s : List Char}
    (hbad : ∃ p ∈ ps, ∀ c, isIdChar c = true → patOk p c = false)
    (hs : s.all isIdChar = true) : pmatch ps s = none := by
  induction ps generalizing s with
  | nil => obtain ⟨p, hp, _⟩ := hbad; simp at hp
  | cons p ps ih =>
    cases s with
    | nil => rfl
    | cons c cs =>
      have hall : isIdChar c = true ∧ cs.all isIdChar = true := by
        rw [List.all_cons, Bool.and_eq_true] at hs; exact hs
      obtain ⟨p0, hp0, hprop⟩ := hbad
      rcases List.mem_cons.mp hp0 with he | hmem
      · subst he
        simp [pmatch, hprop c hall.1]
      · by_cases hp : patOk p c = true
        · simp only [pmatch, hp, if_true]
          exact ih ⟨p0, hmem, hprop⟩ hall.2
        · simp [pmatch, hp]

theorem tryAlts_eq_none {s : List Char}
    (h1 : pmatch patYoutu s = none) (h2 : pmatch patV s = none)
    (h3 : pmatch patU s = none) (h4 : pmatch patEmbed s = none)
    (h5 : pmatch patWatch s = none) (h6 : pmatch patAmp s = none) :
    tryAlts s = none := by
  unfold tryAlts
  rw [h1, h2, h3, h4, h5, h6]

theorem tryAlts_idChar_none {s : List Char} (h : s.all isIdChar = true) :
    tryAlts s = none := by
  refine tryAlts_eq_none ?_ ?_ ?_ ?_ ?_ ?_
  · exact pmatch_bad_none ⟨.ch '/', by decide, idChar_not_ch (by decide)⟩ h
  · exact pmatch_bad_none ⟨.ch '/', by decide, idChar_not_ch (by decide)⟩ h
  · exact pmatch_bad_none ⟨.ch '/', by decide, idChar_not_ch (by decide)⟩ h
  · exact pmatch_bad_none ⟨.ch '/', by decide, idChar_not_ch (by decide)⟩ h
  · exact pmatch_bad_none ⟨.ch '?', by decide, idChar_not_ch (by decide)⟩ h
  · exact pmatch_bad_none ⟨.ch '&', by decide, idChar_not_ch (by decide)⟩ h

theorem idChar_jsDot {c : Char} (h : isIdChar c = true) : jsDot c = true := by
  by_cases e1 : c = '\n'
  · subst e1; exact absurd h (by decide)
  by_cases e2 : c = '\r'
  · subst e2; exact absurd h (by decide)
  by_cases e3 : c = Char.ofNat 0x2028
  · subst e3; exact absurd h (by decide)
  by_cases e4 : c = Char.ofNat 0x2029
  · subst e4; exact absurd h (by decide)
  simp [jsDot, e1, e2, e3, e4]

theorem matchFrom_idChar_none {s : List Char} (h : s.all isIdChar = true) :
    matchFrom s = none := by
  induction s with
  | nil => rfl
  | cons c cs ih =>
    have hall : isIdChar c = true ∧ cs.all isIdChar = true := by
      rw [List.all_cons, Bool.and_eq_true] at h; exact h
    simp only [matchFrom, if_pos (idChar_jsDot hall.1), ih hall.2]
    exact tryAlts_idChar_none (by rw [List.all_cons, Bool.and_eq_true]; exact hall)

theorem matchFrom_cons_some {c : Char} {s r : List Char}
    (h1 : jsDot c = true) (h2 : matchFrom s = some r) :
    matchFrom (c :: s) = some r := by
  simp only [matchFrom, if_pos h1, h2]

theorem matchFrom_cons_tail {c : Char} {s : List Char}
    (h : matchFrom s = none) : matchFrom (c :: s) = tryAlts (c :: s) := by
  by_cases h1 : jsDot c = true
  · simp only [matchFrom, if_pos h1, h]
  · simp only [matchFrom, if_neg h1]

theorem matchFrom_append_some {s r : List Char} (pre : List Char)
    (hpre : ∀ c ∈ pre, jsDot c = true) (h : matchFrom s = some r) :
    matchFrom (pre ++ s) = some r := by
  induction pre with
  | nil => exact h
  | cons c cs ih =>
    exact matchFrom_cons_some (hpre c (List.mem_cons_self c cs))
      (ih fun x hx => hpre x (List.mem_cons_of_mem c hx))

theorem idChar_notDelim {c : Char} (h : isIdChar c = true) : notDelim c = true := by
  by_cases e1 : c = '#'
  · subst e1; exact absurd h (by decide)
  by_cases e2 : c = '&'
  · subst e2; exact absurd h (by decide)
  by_cases e3 : c = '?'
  · subst e3; exact absurd h (by decide)
  simp [notDelim, e1, e2, e3]

theorem takeWhile_idChar {s : List Char} (h : s.all isIdChar = true) :
    s.takeWhile notDelim = s := by
  induction s with
  | nil => rfl
  | cons c cs ih =>
    have hall : isIdChar c = true ∧ cs.all isIdChar = true := by
      rw [List.all_cons, Bool.and_eq_true] at h; exact h
    simp only [List.takeWhile_cons, idChar_notDelim hall.1, if_true, ih hall.2]

theorem getYouTubeId_of_matchFrom {url : String} {ident : List Char}
    (hm : matchFrom url.data = some ident) (h : ident.all isIdChar = true) :
    getYouTubeId url =
      if ident.length = 11 then some (String.mk ident) else none := by
  unfold getYouTubeId
  rw [hm]
  simp only [takeWhile_idChar h]
  rfl

/-! For each recognized link shape, the regex position search lands on the
intended marker: no alternative matches at any later position (each
alternative fails inside the concrete marker characters or would need a
`/`, `?`, `=` or `&` inside the identifier), and everything before a
successful later position is irrelevant because the greedy `^.*` prefers
the last match. -/

theorem matchFrom_shape_youtu {ident : List Char} (h : ident.all isIdChar = true) :
    matchFrom ("https://youtu.be/".data ++ ident) = some ident := by
  have h0 : matchFrom ident = none := matchFrom_idChar_none h
  have e1 : matchFrom ('/' :: ident) = none := (matchFrom_cons_tail h0).trans rfl
  have e2 : matchFrom ('e' :: '/' :: ident) = none := (matchFrom_cons_tail e1).trans rfl
  have e3 : matchFrom ('b' :: 'e' :: '/' :: ident) = none :=
    (matchFrom_cons_tail e2).trans rfl
  have e4 : matchFrom ('.' :: 'b' :: 'e' :: '/' :: ident) = none :=
    (matchFrom_cons_tail e3).trans rfl
  have e5 : matchFrom ('u' :: '.' :: 'b' :: 'e' :: '/' :: ident) = none :=
    (matchFrom_cons_tail e4).trans rfl
  have e6 : matchFrom ('t' :: 'u' :: '.' :: 'b' :: 'e' :: '/' :: ident) = none :=
    (matchFrom_cons_tail e5).trans rfl
  have e7 : matchFrom ('u' :: 't' :: 'u' :: '.' :: 'b' :: 'e' :: '/' :: ident) = none :=
    (matchFrom_cons_tail e6).trans rfl
  have e8 : matchFrom ('o' :: 'u' :: 't' :: 'u' :: '.' :: 'b' :: 'e' :: '/' :: ident) = none :=
    (matchFrom_cons_tail e7).trans rfl
  have e9 : matchFrom
      ('y' :: 'o' :: 'u' :: 't' :: 'u' :: '.' :: 'b' :: 'e' :: '/' :: ident) = some ident :=
    (matchFrom_cons_tail e8).trans rfl
  exact matchFrom_append_some "https://".data (by decide) e9

theorem matchFrom_shape_v {ident : List Char} (h : ident.all isIdChar = true) :
    matchFrom ("https://www.youtube.com/v/".data ++ ident) = some ident := by
  have h0 : matchFrom ident = none := matchFrom_idChar_none h
  have e1 : matchFrom ('/' :: ident) = none := (matchFrom_cons_tail h0).trans rfl
  have e2 : matchFrom ('v' :: '/' :: ident) = some ident :=
    (matchFrom_cons_tail e1).trans rfl
  exact matchFrom_append_some "https://www.youtube.com/".data (by decide) e2

theorem matchFrom_shape_u {ident : List Char} (h : ident.all isIdChar = true) :
    matchFrom ("https://www.youtube.com/u/1/".data ++ ident) = some ident := by
  have h0 : matchFrom ident = none := matchFrom_idChar_none h
  have e1 : matchFrom ('/' :: ident) = none := (matchFrom_cons_tail h0).trans rfl
  have e2 : matchFrom ('1' :: '/' :: ident) = none := (matchFrom_cons_tail e1).trans rfl
  have e3 : matchFrom ('/' :: '1' :: '/' :: ident) = none :=
    (matchFrom_cons_tail e2).trans rfl
  have e4 : matchFrom ('u' :: '/' :: '1' :: '/' :: ident) = some ident :=
    (matchFrom_cons_tail e3).trans rfl
  exact matchFrom_append_some "https://www.youtube.com/".data (by decide) e4

theorem matchFrom_shape_embed {ident : List Char} (h : ident.all isIdChar = true) :
    matchFrom ("https://www.youtube.com/embed/".data ++ ident) = some ident := by
  have h0 : matchFrom ident = none := matchFrom_idChar_none h
  have e1 : matchFrom ('/' :: ident) = none := (matchFrom_cons_tail h0).trans rfl
  have e2 : matchFrom ('d' :: '/' :: ident) = none := (matchFrom_cons_tail e1).trans rfl
  have e3 : matchFrom ('e' :: 'd' :: '/' :: ident) = none :=
    (matchFrom_cons_tail e2).trans rfl
  have e4 : matchFrom ('b' :: 'e' :: 'd' :: '/' :: ident) = none :=
    (matchFrom_cons_tail e3).trans rfl
  have e5 : matchFrom ('m' :: 'b' :: 'e' :: 'd' :: '/' :: ident) = none :=
    (matchFrom_cons_tail e4).trans rfl
  have e6 : matchFrom ('e' :: 'm' :: 'b' :: 'e' :: 'd' :: '/' :: ident) = some ident :=
    (matchFrom_cons_tail e5).trans rfl
  exact matchFrom_append_some "https://www.youtube.com/".data (by decide) e6

theorem matchFrom_shape_watch {ident : List Char} (h : ident.all isIdChar = true) :
    matchFrom ("https://www.youtube.com/watch?v=".data ++ ident) = some ident := by
  have h0 : matchFrom ident = none := matchFrom_idChar_none h
  have e1 : matchFrom ('=' :: ident) = none := (matchFrom_cons_tail h0).trans rfl
  have e2 : matchFrom ('v' :: '=' :: ident) = none := (matchFrom_cons_tail e1).trans rfl
  have e3 : matchFrom ('?' :: 'v' :: '=' :: ident) = none :=
    (matchFrom_cons_tail e2).trans rfl
  have e4 : matchFrom ('h' :: '?' :: 'v' :: '=' :: ident) = none :=
    (matchFrom_cons_tail e3).trans rfl
  have e5 : matchFrom ('c' :: 'h' :: '?' :: 'v' :: '=' :: ident) = none :=
    (matchFrom_cons_tail e4).trans rfl
  have e6 : matchFrom ('t' :: 'c' :: 'h' :: '?' :: 'v' :: '=' :: ident) = none :=
    (matchFrom_cons_tail e5).trans rfl
  have e7 : matchFrom ('a' :: 't' :: 'c' :: 'h' :: '?' :: 'v' :: '=' :: ident) = none :=
    (matchFrom_cons_tail e6).trans rfl
  have e8 : matchFrom
      ('w' :: 'a' :: 't' :: 'c' :: 'h' :: '?' :: 'v' :: '=' :: ident) = some ident :=
    (matchFrom_cons_tail e7).trans rfl
  exact matchFrom_append_some "https://www.youtube.com/".data (by decide) e8

theorem matchFrom_shape_ampv {ident : List Char} (h : ident.all isIdChar = true) :
    matchFrom ("https://www.youtube.com/watch?feature=share&v=".data ++ ident) =
      some ident := by
  have h0 : matchFrom ident = none := matchFrom_idChar_none h
  have e1 : matchFrom ('=' :: ident) = none := (matchFrom_cons_tail h0).trans rfl
  have e2 : matchFrom ('v' :: '=' :: ident) = none := (matchFrom_cons_tail e1).trans rfl
  have e3 : matchFrom ('&' :: 'v' :: '=' :: ident) = some ident :=
    (matchFrom_cons_tail e2).trans rfl
  exact matchFrom_append_some "https://www.youtube.com/watch?feature=share".data
    (by decide) e3

theorem insertByDate_perm (d : Devotional) (l : List Devotional) :
    (insertByDate d l).Perm (d :: l) := by
  induction l with
  | nil => exact List.Perm.refl _
  | cons e es ih =>
    simp only [insertByDate]
    split
    · exact List.Perm.refl _
    · exact (ih.cons e).trans (List.Perm.swap d e es)

theorem sortByDateDesc_perm (l : List Devotional) :
    (sortByDateDesc l).Perm l := by
  induction l with
  | nil => exact List.Perm.refl _
  | cons d ds ih =>
    exact (insertByDate_perm d (sortByDateDesc ds)).trans (ih.cons d)

theorem mem_sortByDateDesc {x : Devotional} {l : List Devotional} :
    x ∈ sortByDateDesc l ↔ x ∈ l :=
  (sortByDateDesc_perm l).mem_iff

theorem mem_insertByDate {x d : Devotional} {l : List Devotional} :
    x ∈ insertByDate d l ↔ x = d ∨ x ∈ l :=
  (insertByDate_perm d l).mem_iff.trans List.mem_cons

theorem cmpLe_le {d e : Devotional} {kd ke : Int} (hkd : sortKey d = some kd)
    (hke : sortKey e = some ke) (hc : cmpLe d e = true) :
    (sortKey e).getD 0 ≤ (sortKey d).getD 0 := by
  rw [hkd, hke]
  simp only [Option.getD_some]
  simpa [cmpLe, hkd, hke] using hc

theorem cmpLe_not_le {d e : Devotional} {kd ke : Int} (hkd : sortKey d = some kd)
    (hke : sortKey e = some ke) (hc : ¬cmpLe d e = true) :
    (sortKey d).getD 0 ≤ (sortKey e).getD 0 := by
  rw [hkd, hke]
  simp only [Option.getD_some]
  have : ¬(ke ≤ kd) := by simpa [cmpLe, hkd, hke] using hc
  exact le_of_not_le this

theorem pairwise_insertByDate {d : Devotional} {l : List Devotional}
    (hd : (sortKey d).isSome = true) (hl : ∀ e ∈ l, (sortKey e).isSome = true)
    (hp : l.Pairwise fun a b => (sortKey b).getD 0 ≤ (sortKey a).getD 0) :
    (insertByDate d l).Pairwise
      fun a b => (sortKey b).getD 0 ≤ (sortKey a).getD 0 := by
  induction l with
  | nil => simp [insertByDate]
  | cons e es ih =>
    obtain ⟨hde, hes⟩ := List.pairwise_cons.mp hp
    obtain ⟨kd, hkd⟩ := Option.isSome_iff_exists.mp hd
    obtain ⟨ke, hke⟩ := Option.isSome_iff_exists.mp (hl e (List.mem_cons_self e es))
    simp only [insertByDate]
    by_cases hc : cmpLe d e = true
    · rw [if_pos hc]
      refine List.Pairwise.cons ?_ hp
      intro x hx
      rcases List.mem_cons.mp hx with hxe | hmem
      · subst hxe; exact cmpLe_le hkd hke hc
      · exact le_trans (hde x hmem) (cmpLe_le hkd hke hc)
    · rw [if_neg hc]
      refine List.Pairwise.cons ?_
        (ih (fun x hx => hl x (List.mem_cons_of_mem e hx)) hes)
      intro x hx
      rcases mem_insertByDate.mp hx with hxd | hmem
      · subst hxd; exact cmpLe_not_le hkd hke hc
      · exact hde x hmem

theorem pairwise_sortByDateDesc {l : List Devotional}
    (hl : ∀ e ∈ l, (sortKey e).isSome = true) :
    (sortByDateDesc l).Pairwise
      fun a b => (sortKey b).getD 0 ≤ (sortKey a).getD 0 := by
  induction l with
  | nil => simp [sortByDateDesc]
  | cons d ds ih =>
    exact pairwise_insertByDate (hl d (List.mem_cons_self d ds))
      (fun e he => hl e (List.mem_cons_of_mem d (mem_sortByDateDesc.mp he)))
      (ih fun e he => hl e (List.mem_cons_of_mem d he))

theorem normalizeRow_fields {row : RawRow} {i : Nat} {d : Devotional}
    (h : normalizeRow row i = some d) :
    d.title = row.title ∧ d.date = row.date := by
  cases hv : row.videoUrl with
  | none => simp [normalizeRow, hv] at h
  | some u =>
    simp only [normalizeRow, hv, Option.bind_eq_bind, Option.some_bind,
      Option.some.injEq] at h
    subst h
    exact ⟨rfl, rfl⟩

theorem normalizeAll_mem {rows : List RawRow} {i : Nat} {ds : List Devotional}
    (h : normalizeAll i rows = some ds) {d : Devotional} (hd : d ∈ ds) :
    ∃ r ∈ rows, ∃ j, normalizeRow r j = some d := by
  induction rows generalizing i ds with
  | nil =>
    simp only [normalizeAll, Option.some.injEq] at h
    subst h
    simp at hd
  | cons r rs ih =>
    simp only [normalizeAll, Option.bind_eq_bind] at h
    cases h1 : normalizeRow r i with
    | none => simp [h1] at h
    | some d1 =>
      rw [h1] at h
      simp only [Option.some_bind] at h
      cases h2 : normalizeAll (i + 1) rs with
      | none => simp [h2] at h
      | some ds1 =>
        rw [h2] at h
        simp only [Option.some_bind, Option.some.injEq] at h
        subst h
        rcases List.mem_cons.mp hd with h3 | h3
        · exact ⟨r, List.mem_cons_self r rs, i, h3 ▸ h1⟩
        · obtain ⟨r1, hr1, j, hj⟩ := ih h2 h3
          exact ⟨r1, List.mem_cons_of_mem r hr1, j, hj⟩

theorem lengthGate_some {cap : List Char} {v : String}
    (h : lengthGate cap = some v) : v.length = 11 := by
  unfold lengthGate at h
  by_cases hc : cap.length = 11
  · rw [if_pos hc, Option.some.injEq] at h
    rw [← h]
    exact hc
  · rw [if_neg hc] at h
    cases h

theorem getYouTubeId_length {u v : String} (h : getYouTubeId u = some v) :
    v.length = 11 := by
  unfold getYouTubeId at h
  cases hm : matchFrom u.data with
  | none => rw [hm] at h; cases h
  | some rest =>
    rw [hm] at h
    exact lengthGate_some h

theorem strIncludes_nil (l : List Char) : strIncludes l [] = true := by
  cases l <;> rfl

theorem rowPass_eq_specPass {d : Devotional} {ti sp : String}
    (hti : d.title = some ti) (hsp : d.speaker = some sp) (f : Filter) (t : String) :
    rowPass f t d = some (specPass f t d) := by
  have hLang : (decide (f = Filter.all) || langIsFilter d.language f) =
      ((selectedLang f).isNone || decide (selectedLang f = some d.language)) := by
    cases f <;> cases hq : d.language <;> simp [langIsFilter, selectedLang, hq]
  simp only [rowPass, hti, hsp, Option.bind_eq_bind, Option.some_bind, specPass,
    Option.getD_some]
  split
  · next hinc =>
    have hci : ciSubstr t ti = true := hinc
    simp [hLang, hci]
  · next hinc =>
    have hT : (decide (t = "")) = false := by
      apply decide_eq_false
      intro e
      subst e
      exact hinc (strIncludes_nil _)
    have hci : ciSubstr t ti = false := Bool.eq_false_iff.mpr hinc
    simp [hLang, hci, hT]
    rfl

theorem truthy_iff {x : Option String} :
    truthy x = true ↔ x ≠ none ∧ x ≠ some "" := by
  cases x with
  | none => simp [truthy]
  | some s => simp [truthy]

/-! ## Theorems -/

/-- C1.  The claim says that on a failed network retrieval (rejected
`fetch`, and likewise a non-success status) the loader substitutes the
fallback dataset and the error state remains unset.  The code substitutes
the fallback but also SETS the error (setError with "Failed to load
devotionals", App.tsx line 107), so the render gate of the page
`!loading && !error` (line 593) hides the substituted records — directly
contradicting the adjacent comment "Fallback to mock data on error so the
site is not empty".  This theorem evaluates the load at both failing
inputs: loading ends false and the fallback is substituted, but the error
is set (not `none`) and the grid is not rendered. -/
theorem C1_fetch_failure_sets_error :
    runLoad .reject =
      ⟨MOCK_DEVOTIONALS, false, some "Failed to load devotionals"⟩ ∧
    runLoad .notOk =
      ⟨MOCK_DEVOTIONALS, false, some "Failed to load devotionals"⟩ ∧
    (runLoad .reject).error ≠ none ∧
    (runLoad .notOk).error ≠ none ∧
    gridVisible (runLoad .reject) = false ∧
    MOCK_DEVOTIONALS ≠ [] := by
  refine ⟨rfl, rfl, by decide, by decide, by decide, by decide⟩

/-- C2.  When retrieval succeeds but the tabular parser reports failure,
the load ends with loading false, the error set to a non-empty message,
the record collection still empty, and no fallback substituted
(App.tsx lines 98-102). -/
theorem C2_parse_failure_state :
    runLoad (.ok .failure) = ⟨[], false, some "Failed to parse data"⟩ ∧
    (runLoad (.ok .failure)).error ≠ none ∧
    (runLoad (.ok .failure)).error ≠ some "" ∧
    (runLoad (.ok .failure)).devotionals = [] ∧
    (runLoad (.ok .failure)).devotionals ≠ MOCK_DEVOTIONALS := by
  refine ⟨rfl, by decide, by decide, rfl, by decide⟩

/-- C5.  Language normalization maps exactly the inputs whose
case-insensitive value is `"en"` to the English value, and every other
input — `"tl"`, the empty string, `"xyz"`, a missing field — to the
Tagalog default; the result is always one of the two values. -/
theorem C5_language_normalization :
    (∀ s : String, normLang (some s) = Language.en ↔ jsToLower s = "en") ∧
    normLang none = Language.tl ∧
    (∀ x : Option String, normLang x = Language.en ∨ normLang x = Language.tl) ∧
    normLang (some "EN") = Language.en ∧
    normLang (some "en") = Language.en ∧
    normLang (some "En") = Language.en ∧
    normLang (some "tl") = Language.tl ∧
    normLang (some "") = Language.tl ∧
    normLang (some "xyz") = Language.tl := by
  refine ⟨?_, rfl, ?_, by decide, by decide, by decide, by decide, by decide, by decide⟩
  · intro s
    by_cases h : jsToLower s = "en" <;> simp [normLang, h]
  · intro x
    cases x with
    | none => exact Or.inr rfl
    | some s =>
      by_cases h : jsToLower s = "en"
      · exact Or.inl (by simp [normLang, h])
      · exact Or.inr (by simp [normLang, h])

/-- C7.  For every record collection whose records conform to the
declared `Devotional` type (title and speaker present), the view model
output is exactly the input filtered by the spec predicate — a record
appears iff (no language filter is selected or its language equals the
selected value) and (the search term is empty or is, case-insensitively,
a substring of its title or its speaker) — and that output is a sublist
of the input: the loader-established order is preserved, with no
re-sorting. -/
theorem C7_view_model_filters :
    ∀ (ds : List Devotional) (f : Filter) (t : String),
      (∀ d ∈ ds, d.title ≠ none ∧ d.speaker ≠ none) →
      viewModel ds f t = some (ds.filter (specPass f t)) ∧
      (ds.filter (specPass f t)).Sublist ds := by
  intro ds f t h
  refine ⟨?_, List.filter_sublist ds⟩
  revert h
  induction ds with
  | nil => intro _; rfl
  | cons d rest ih =>
    intro h
    obtain ⟨hti0, hsp0⟩ := h d (List.mem_cons_self d rest)
    obtain ⟨ti, hti⟩ := Option.ne_none_iff_exists.mp hti0
    obtain ⟨sp, hsp⟩ := Option.ne_none_iff_exists.mp hsp0
    have h1 := rowPass_eq_specPass hti.symm hsp.symm f t
    have h2 := ih (fun x hx => h x (List.mem_cons_of_mem d hx))
    simp only [viewModel, filterE, Option.bind_eq_bind] at h2 ⊢
    rw [h1]
    simp only [Option.some_bind]
    rw [h2]
    simp only [Option.some_bind, List.filter_cons]

theorem C7_view_model_filters_witness :
    viewModel
      [⟨"1", some "2024-05-20", some "Faith", some "Ana", Language.en,
        some "X", some "u", "t"⟩,
       ⟨"2", some "2024-05-01", some "Pananampalataya", some "Ben", Language.tl,
        some "X", some "u", "t"⟩] Filter.en "faith" =
      some [⟨"1", some "2024-05-20", some "Faith", some "Ana", Language.en,
        some "X", some "u", "t"⟩] := by
  have h := (C7_view_model_filters
    [⟨"1", some "2024-05-20", some "Faith", some "Ana", Language.en,
      some "X", some "u", "t"⟩,
     ⟨"2", some "2024-05-01", some "Pananampalataya", some "Ben", Language.tl,
      some "X", some "u", "t"⟩] Filter.en "faith" (by decide)).1
  rw [h]
  decide

/-- C8.  For every raw row carrying a video link, normalization always
produces a record (extraction failure never causes rejection), and its
thumbnail address is derived deterministically: when an identifier is
extracted it is 11 characters long and the address is the fixed pattern
`https://img.youtube.com/vi/<id>/maxresdefault.jpg`; when extraction
fails the address is the fixed generic placeholder.  Equal identifiers
always yield equal addresses. -/
theorem C8_thumbnail_derivation :
    (∀ (row : RawRow) (i : Nat) (u : String), row.videoUrl = some u →
      (normalizeRow row i).isSome = true ∧
      (∀ vid, getYouTubeId u = some vid → vid.length = 11 ∧
        (normalizeRow row i).map (fun d => d.thumbnailUrl) =
          some ("https://img.youtube.com/vi/" ++ vid ++ "/maxresdefault.jpg")) ∧
      (getYouTubeId u = none →
        (normalizeRow row i).map (fun d => d.thumbnailUrl) =
          some "https://picsum.photos/800/600?grayscale")) ∧
    (∀ a b : String, a = b → getThumbnailUrl a = getThumbnailUrl b) := by
  constructor
  · intro row i u hu
    refine ⟨?_, ?_, ?_⟩
    · simp [normalizeRow, hu]
    · intro vid hvid
      have hlen := getYouTubeId_length hvid
      have hne : ¬(vid = "") := by
        intro e
        subst e
        simp at hlen
      refine ⟨hlen, ?_⟩
      simp [normalizeRow, hu, hvid, hne, getThumbnailUrl]
    · intro hg
      simp [normalizeRow, hu, hg]
  · intro a b e
    rw [e]

theorem C8_thumbnail_derivation_witness :
    (normalizeRow ⟨some "2024-01-01", some "T", some "S", some "en", some "P",
        some "https://youtu.be/dQw4w9WgXcQ"⟩ 0).map (fun d => d.thumbnailUrl) =
      some "https://img.youtube.com/vi/dQw4w9WgXcQ/maxresdefault.jpg" := by
  have h := ((C8_thumbnail_derivation.1
    ⟨some "2024-01-01", some "T", some "S", some "en", some "P",
      some "https://youtu.be/dQw4w9WgXcQ"⟩ 0
    "https://youtu.be/dQw4w9WgXcQ" rfl).2.1 "dQw4w9WgXcQ" (by decide)).2
  revert h
  decide

/-- C9.  The normalizer copies the Speaker field verbatim: a raw row with
Date and Title but no Speaker value yields a record (the load does not
reject it) whose `speaker` is absent rather than the empty string —
violating the declared `Devotional` interface, which types `speaker` as
`string` — and the search filter of the view model then calls toLowerCase
on that absent value, so its `TypeError` branch is reachable (the search
term `"q"` does not occur in the title, so the title test fails and the
speaker is evaluated). -/
theorem C9_verbatim_speaker_reaches_error :
    (normalizeRow ⟨some "2024-01-01", some "Grace", none, some "tl",
        some "Psalm 1", some "https://youtu.be/dQw4w9WgXcQ"⟩ 0).isSome = true ∧
    (normalizeRow ⟨some "2024-01-01", some "Grace", none, some "tl",
        some "Psalm 1", some "https://youtu.be/dQw4w9WgXcQ"⟩ 0).map
      (fun d => d.speaker) = some none ∧
    (normalizeRow ⟨some "2024-01-01", some "Grace", none, some "tl",
        some "Psalm 1", some "https://youtu.be/dQw4w9WgXcQ"⟩ 0).map
      (fun d => d.speaker) ≠ some (some "") ∧
    (normalizeRow ⟨some "2024-01-01", some "Grace", none, some "tl",
        some "Psalm 1", some "https://youtu.be/dQw4w9WgXcQ"⟩ 0).bind
      (fun d => rowPass Filter.all "q" d) = none ∧
    (normalizeRow ⟨some "2024-01-01", some "Grace", none, some "tl",
        some "Psalm 1", some "https://youtu.be/dQw4w9WgXcQ"⟩ 0).bind
      (fun d => viewModel [d] Filter.all "q") = none := by
  refine ⟨by decide, by decide, by decide, by decide, by decide⟩

/-- C10.  The extractor matches its markers as substrings anywhere in the
input: the unescaped dot in `youtu.be/` matches an arbitrary character,
so texts that are not of any listed link shape still extract (first two
conjuncts), and when several markers occur the one at the last occurrence
is the one whose following segment is captured (last two conjuncts: an
earlier `v/` or `embed/` marker is overridden by a later one). -/
theorem C10_greedy_substring_matching :
    getYouTubeId "youtuXbe/abcdefghijk" = some "abcdefghijk" ∧
    getYouTubeId "not a link: myoutuZbe/abcdefghijk?x=1" = some "abcdefghijk" ∧
    getYouTubeId "v/00000000000v/11111111111" = some "11111111111" ∧
    getYouTubeId "embed/v/abcdefghijk" = some "abcdefghijk" := by
  refine ⟨by decide, by decide, by decide, by decide⟩

/-- C3.  For an input link of each recognized shape — short-link host,
`/v/`, `/u/<digit>/`, `/embed/`, `watch?v=`, trailing `&v=` — carrying an
embedded identifier over the video-identifier alphabet `[A-Za-z0-9_-]`,
extraction returns exactly that identifier when it is 11 characters long,
and returns absence (`none`) for a captured segment of any other length,
even though the marker match structurally succeeded. -/
theorem C3_recognized_shapes_eleven_char_gate :
    ∀ ident : List Char, ident.all isIdChar = true →
      (getYouTubeId ("https://youtu.be/" ++ String.mk ident) =
        if ident.length = 11 then some (String.mk ident) else none) ∧
      (getYouTubeId ("https://www.youtube.com/v/" ++ String.mk ident) =
        if ident.length = 11 then some (String.mk ident) else none) ∧
      (getYouTubeId ("https://www.youtube.com/u/1/" ++ String.mk ident) =
        if ident.length = 11 then some (String.mk ident) else none) ∧
      (getYouTubeId ("https://www.youtube.com/embed/" ++ String.mk ident) =
        if ident.length = 11 then some (String.mk ident) else none) ∧
      (getYouTubeId ("https://www.youtube.com/watch?v=" ++ String.mk ident) =
        if ident.length = 11 then some (String.mk ident) else none) ∧
      (getYouTubeId ("https://www.youtube.com/watch?feature=share&v=" ++ String.mk ident) =
        if ident.length = 11 then some (String.mk ident) else none) := by
  intro ident h
  exact ⟨getYouTubeId_of_matchFrom (matchFrom_shape_youtu h) h,
    getYouTubeId_of_matchFrom (matchFrom_shape_v h) h,
    getYouTubeId_of_matchFrom (matchFrom_shape_u h) h,
    getYouTubeId_of_matchFrom (matchFrom_shape_embed h) h,
    getYouTubeId_of_matchFrom (matchFrom_shape_watch h) h,
    getYouTubeId_of_matchFrom (matchFrom_shape_ampv h) h⟩

theorem C3_recognized_shapes_eleven_char_gate_witness :
    getYouTubeId "https://www.youtube.com/watch?v=dQw4w9WgXcQ" = some "dQw4w9WgXcQ" ∧
    getYouTubeId "https://youtu.be/short" = none := by
  constructor
  · have h := (C3_recognized_shapes_eleven_char_gate "dQw4w9WgXcQ".data
      (by decide)).2.2.2.2.1
    revert h
    decide
  · have h := (C3_recognized_shapes_eleven_char_gate "short".data (by decide)).1
    revert h
    decide

/-- C4.  Every record in a successfully processed collection has a
non-empty title and a non-empty date (the row filter admits only rows
whose `Date` and `Title` values are truthy, and the normalizer copies the
two fields verbatim), and a raw row whose `Date` or `Title` is missing or
empty is dropped by the filter before normalization: processing with the
bad row is identical to processing without it, so the drop neither
surfaces the row nor fails the load. -/
theorem C4_nonempty_title_and_date :
    (∀ (rows : List RawRow) (ds : List Devotional), processRows rows = some ds →
      ∀ d ∈ ds, d.title ≠ none ∧ d.title ≠ some "" ∧
        d.date ≠ none ∧ d.date ≠ some "") ∧
    (∀ (bad : RawRow) (rows : List RawRow),
      bad.date = none ∨ bad.date = some "" ∨ bad.title = none ∨ bad.title = some "" →
      processRows (bad :: rows) = processRows rows) := by
  constructor
  · intro rows ds h d hd
    simp only [processRows] at h
    cases hn : normalizeAll 0 (rows.filter rowPasses) with
    | none => rw [hn] at h; simp at h
    | some ds0 =>
      rw [hn] at h
      rw [Option.map_some'] at h
      rw [Option.some.injEq] at h
      subst h
      have hd0 : d ∈ ds0 := mem_sortByDateDesc.mp hd
      obtain ⟨r, hr, j, hj⟩ := normalizeAll_mem hn hd0
      have hpass : rowPasses r = true := List.of_mem_filter hr
      obtain ⟨ht, hdate⟩ := normalizeRow_fields hj
      have hp := Bool.and_eq_true_iff.mp hpass
      have h1 := truthy_iff.mp hp.1
      have h2 := truthy_iff.mp hp.2
      exact ⟨ht ▸ h2.1, ht ▸ h2.2, hdate ▸ h1.1, hdate ▸ h1.2⟩
  · intro bad rows hbad
    have hp : rowPasses bad = false := by
      rcases hbad with h | h | h | h <;> simp [rowPasses, truthy, h]
    simp [processRows, List.filter_cons, hp]

/-- C6.  The loader sorts the surviving normalized records by date
descending: whenever the date of every record parses, consecutive-and-beyond
pairs of the sorted output are in non-increasing key order (the key is
sign-faithful to `new Date(·).getTime()`), and the output is a
permutation of the input.  In particular the full pipeline on rows dated
2024-05-01, 2024-05-20, 2024-03-10 loads them as
2024-05-20, 2024-05-01, 2024-03-10. -/
theorem C6_sorted_newest_first :
    (∀ ds : List Devotional, (∀ d ∈ ds, (sortKey d).isSome = true) →
      (sortByDateDesc ds).Pairwise
        (fun a b => (sortKey b).getD 0 ≤ (sortKey a).getD 0) ∧
      (sortByDateDesc ds).Perm ds) ∧
    (runLoad (.ok (.success
      [⟨some "2024-05-01", some "A", some "S1", some "tl", some "P1", some "u1"⟩,
       ⟨some "2024-05-20", some "B", some "S2", some "en", some "P2", some "u2"⟩,
       ⟨some "2024-03-10", some "C", some "S3", some "tl", some "P3", some "u3"⟩]))).devotionals.map
      (fun d => d.date) =
      [some "2024-05-20", some "2024-05-01", some "2024-03-10"] := by
  constructor
  · intro ds h
    exact ⟨pairwise_sortByDateDesc h, sortByDateDesc_perm ds⟩
  · decide

theorem C6_sorted_newest_first_witness :
    (sortByDateDesc MOCK_DEVOTIONALS).Perm MOCK_DEVOTIONALS :=
  (C6_sorted_newest_first.1 MOCK_DEVOTIONALS (by decide)).2

theorem C4_nonempty_title_and_date_witness :
    ((⟨"sheet-0", some "2024-05-01", some "T", some "S", Language.tl, some "X",
        some "url", "https://picsum.photos/800/600?grayscale"⟩ : Devotional).title ≠ none ∧
      (⟨"sheet-0", some "2024-05-01", some "T", some "S", Language.tl, some "X",
        some "url", "https://picsum.photos/800/600?grayscale"⟩ : Devotional).title ≠ some "" ∧
      (⟨"sheet-0", some "2024-05-01", some "T", some "S", Language.tl, some "X",
        some "url", "https://picsum.photos/800/600?grayscale"⟩ : Devotional).date ≠ none ∧
      (⟨"sheet-0", some "2024-05-01", some "T", some "S", Language.tl, some "X",
        some "url", "https://picsum.photos/800/600?grayscale"⟩ : Devotional).date ≠ some "") ∧
    processRows [⟨none, some "Title", none, none, none, none⟩,
        ⟨some "2024-05-01", some "T", some "S", some "tl", some "X", some "url"⟩] =
      processRows [⟨some "2024-05-01", some "T", some "S", some "tl", some "X", some "url"⟩] := by
  constructor
  · exact C4_nonempty_title_and_date.1
      [⟨some "2024-05-01", some "T", some "S", some "tl", some "X", some "url"⟩]
      [⟨"sheet-0", some "2024-05-01", some "T", some "S", Language.tl, some "X",
        some "url", "https://picsum.photos/800/600?grayscale"⟩]
      (by decide) _ (by decide)
  · exact C4_nonempty_title_and_date.2
      ⟨none, some "Title", none, none, none, none⟩
      [⟨some "2024-05-01", some "T", some "S", some "tl", some "X", some "url"⟩]
      (Or.inl rfl)

end Ruc
